import Mathlib

/-!
Verification of the identity-number codec and region-resolution engine of
the sfz-gen repository (src/src/idGenerator.js), as a shallow embedding.

Strings of the JavaScript source are modelled as `List Char`; JavaScript
`Map` objects are modelled as association lists whose lookup returns the
first matching entry and whose `set` updates an existing entry in place;
calls to `Math.random()` are modelled by explicit draw parameters, where
the JavaScript `Math.floor(Math.random() * n)` becomes `r % n` for an
arbitrary natural number `r` (both range over exactly `[0, n)`).
Thrown errors are modelled with `Except String`.
-/

/-- JavaScript strings are modelled as lists of characters. -/
abbrev Str := List Char

/-- Numeric value of a decimal digit character, as used by `parseInt` on a
single digit. -/
def digitVal (c : Char) : Nat := c.toNat - 48

/-- Test for a decimal digit character, the character class `\d`. -/
def isDigitChar (c : Char) : Bool := '0' ≤ c && c ≤ '9'

/-- The regular expression `/^\d{n}$/`: exactly `n` decimal digits. -/
def isDigits (s : Str) (n : Nat) : Bool := s.length == n && s.all isDigitChar

/-- JavaScript `parseInt` on a string of decimal digits. -/
def parseIntChars (s : Str) : Nat := s.foldl (fun a c => a * 10 + digitVal c) 0

/-- Fuel-indexed decimal rendering; the fuel strictly dominates the number
so the recursion is structural. -/
def toDecCharsAux : Nat → Nat → Str
  | 0, _ => []
  | fuel + 1, n =>
    if n < 10 then [Nat.digitChar n]
    else toDecCharsAux fuel (n / 10) ++ [Nat.digitChar (n % 10)]

/-- JavaScript `String(num)` for a natural number: its decimal digits. -/
def toDecChars (n : Nat) : Str := toDecCharsAux (n + 1) n

/-- The source helper `_pad(num, length)`:
`String(num).padStart(length, '0')`. -/
def _pad (num length : Nat) : Str :=
  List.replicate (length - (toDecChars num).length) '0' ++ toDecChars num

/-- The fixed per-position weights `ID_WEIGHTS` of the generator. -/
def ID_WEIGHTS : List Nat := [7, 9, 10, 5, 8, 4, 2, 1, 6, 3, 7, 9, 10, 5, 8, 4, 2]

/-- The fixed check-code lookup table `ID_CHECK_CODES` of the generator. -/
def ID_CHECK_CODES : List Char := ['1', '0', 'X', '9', '8', '7', '6', '5', '4', '3', '2']

/-- The source method `_calculateCheckCode(idCardBase)`: weighted sum of the
first 17 digit characters, reduced modulo 11 and mapped through the table. -/
def _calculateCheckCode (idCardBase : Str) : Char :=
  ID_CHECK_CODES.getD
    ((List.zipWith (fun c w => digitVal c * w) idCardBase ID_WEIGHTS).foldl (· + ·) 0 % 11)
    '1'

/-- The numeric part of `_generateSequenceCode`: the drawn number `num0`
with its parity forced to match the gender, clamped as in the source. -/
def seqNum (gender num0 : Nat) : Nat :=
  let isOdd := num0 % 2 == 1
  if (gender == 1 && !isOdd) || (gender == 0 && isOdd) then
    let n := if gender == 1 then num0 + 1 else num0 - 1
    if n > 999 then 999 else if n < 1 then 2 else n
  else num0

/-- The source method `_generateSequenceCode(gender)`, with the random draw
`Math.floor(Math.random() * 999) + 1` passed in as `num0`. -/
def _generateSequenceCode (gender num0 : Nat) : Str := _pad (seqNum gender num0) 3

/-- The source method `_isLeapYear(year)`. -/
def _isLeapYear (year : Nat) : Bool :=
  (year % 4 == 0 && year % 100 != 0) || year % 400 == 0

/-- The month-dependent day count shared by `_getRandomBirthday` and
`_getBirthdayFromAge`: the padded month string is compared against the
fixed string lists of the source. -/
def monthMaxDay (year : Nat) (month : Str) : Nat :=
  if month ∈ ["04".toList, "06".toList, "09".toList, "11".toList] then 30
  else if month == "02".toList then (if _isLeapYear year then 29 else 28)
  else 31

/-- The source method `_getRandomBirthday()`, with the three random draws
passed in; the year draw ranges over `[1950, 2005]`. -/
def _getRandomBirthday (ry rm rd : Nat) : Str :=
  let year := 1950 + ry % 56
  let month := _pad (rm % 12 + 1) 2
  let maxDay := monthMaxDay year month
  let day := _pad (rd % maxDay + 1) 2
  toDecChars year ++ month ++ day

/-- The source method `_getBirthdayFromAge(age)` with the random draws
passed in: the birth year is the current year minus the age. -/
def _getBirthdayFromAge (todayYear age rm rd : Nat) : Str :=
  let birthYear := todayYear - age
  let month := _pad (rm % 12 + 1) 2
  let maxDay := monthMaxDay birthYear month
  let day := _pad (rd % maxDay + 1) 2
  toDecChars birthYear ++ month ++ day

/-- One district-level entry of the external `province-city-china` `area`
dataset: the 6-digit code, the 2-digit province and city prefixes, and the
display name. -/
structure AreaUnit where
  code : Str
  province : Str
  city : Str
  name : Str
deriving DecidableEq

/-- Options accepted by `generateIdCard`; `none` models an absent field and
`some []` models the supplied empty string (a falsy value). -/
structure IdCardOptions where
  areaCode : Option Str
  birthday : Option Str
  gender : Option Nat
deriving DecidableEq

/-- Explicit random draws standing for the `Math.random()` calls made by
one `generateIdCard` invocation. -/
structure Draws where
  areaIdx : Nat
  ry : Nat
  rm : Nat
  rd : Nat
  g : Nat
  seq : Nat

/-- JavaScript truthiness of an optional string: present and non-empty. -/
def truthyStr : Option Str → Bool
  | some s => !s.isEmpty
  | none => false

/-- The source method `_validateIdCardOptions(options)`. -/
def _validateIdCardOptions (o : IdCardOptions) : Except String Unit :=
  if truthyStr o.areaCode && !(isDigits (o.areaCode.getD []) 6) then
    .error "地区编码必须是6位数字"
  else if truthyStr o.birthday && !(isDigits (o.birthday.getD []) 8) then
    .error "出生日期必须是8位数字，格式为YYYYMMDD"
  else if o.gender.isSome && !(o.gender.getD 0 == 0 || o.gender.getD 0 == 1) then
    .error "性别必须是0(女)或1(男)"
  else .ok ()

/-- `code.endsWith('00')` of JavaScript. -/
def endsWith00 (s : Str) : Bool := ['0', '0'].isSuffixOf s

/-- The cached list of eligible area codes built by `_getRandomAreaCode`:
district-level entries whose codes do not end in "00". -/
def eligibleCodes (areaData : List AreaUnit) : List Str :=
  (areaData.filter (fun a => !endsWith00 a.code)).map (·.code)

/-- The source method `_getRandomAreaCode()` with the random index draw
passed in. -/
def _getRandomAreaCode (areaData : List AreaUnit) (idx : Nat) : Str :=
  let codes := eligibleCodes areaData
  codes.getD (idx % codes.length) []

/-- The effective area code used by `generateIdCard`:
`options.areaCode || this._getRandomAreaCode()`. -/
def effAreaCode (areaData : List AreaUnit) (d : Draws) (o : IdCardOptions) : Str :=
  match o.areaCode with
  | some s => if s.isEmpty then _getRandomAreaCode areaData d.areaIdx else s
  | none => _getRandomAreaCode areaData d.areaIdx

/-- The effective birthday used by `generateIdCard`:
`options.birthday || this._getRandomBirthday()`. -/
def effBirthday (d : Draws) (o : IdCardOptions) : Str :=
  match o.birthday with
  | some s => if s.isEmpty then _getRandomBirthday d.ry d.rm d.rd else s
  | none => _getRandomBirthday d.ry d.rm d.rd

/-- The effective gender used by `generateIdCard`:
`options.gender !== undefined ? options.gender : Math.round(Math.random())`. -/
def effGender (d : Draws) (o : IdCardOptions) : Nat :=
  match o.gender with
  | some g => g
  | none => d.g % 2

/-- The source method `generateIdCard(options)`: validate, fill in absent
fields from random draws, build the 17-character base and append the check
code. -/
def generateIdCard (areaData : List AreaUnit) (d : Draws) (o : IdCardOptions) :
    Except String Str :=
  match _validateIdCardOptions o with
  | .error e => .error e
  | .ok _ =>
    let areaCode := effAreaCode areaData d o
    let birthday := effBirthday d o
    let gender := effGender d o
    let sequenceCode := _generateSequenceCode gender (d.seq % 999 + 1)
    let idCardBase := areaCode ++ birthday ++ sequenceCode
    .ok (idCardBase ++ [_calculateCheckCode idCardBase])

/-- The current date read from `new Date()`, with `getMonth() + 1` already
applied to the month. -/
structure Date where
  year : Nat
  month : Nat
  day : Nat

/-- The decoded bundle returned by `_extractInfoFromIdCard`. -/
structure IdInfo where
  birthYear : Nat
  birthMonth : Nat
  birthDay : Nat
  age : Int
  formattedBirthDate : Str
deriving DecidableEq

/-- JavaScript `substring(start, stop)` on a digit string. -/
def jsSubstring (s : Str) (start stop : Nat) : Str := (s.take stop).drop start

/-- The source method `_extractInfoFromIdCard(idCard)` with the current
date passed in explicitly. -/
def _extractInfoFromIdCard (idCard : Str) (today : Date) : IdInfo :=
  let birthYear := parseIntChars (jsSubstring idCard 6 10)
  let birthMonth := parseIntChars (jsSubstring idCard 10 12)
  let birthDay := parseIntChars (jsSubstring idCard 12 14)
  let age : Int :=
    (today.year : Int) - (birthYear : Int) -
      (if today.month < birthMonth ∨ (today.month = birthMonth ∧ today.day < birthDay)
        then 1 else 0)
  { birthYear := birthYear, birthMonth := birthMonth, birthDay := birthDay,
    age := age,
    formattedBirthDate :=
      toDecChars birthYear ++ ['-'] ++ _pad birthMonth 2 ++ ['-'] ++ _pad birthDay 2 }

/-- The fixed `DIRECT_CITIES` province prefixes of the four
direct-administered municipalities. -/
def DIRECT_CITIES : List Str := ["11".toList, "12".toList, "31".toList, "50".toList]

/-- The placeholder district name excluded by `_resolveDistrictCode`. -/
def szxName : Str := "市辖区".toList

/-- The regular expression `/^\d{4}00$/` of `_resolveDistrictCode`. -/
def municipalPattern (s : Str) : Bool :=
  match s with
  | [a, b, c, d, e, f] =>
    isDigitChar a && isDigitChar b && isDigitChar c && isDigitChar d && e == '0' && f == '0'
  | _ => false

/-- The candidate district list computed inside `_resolveDistrictCode`:
direct-administered municipalities match by province prefix alone, ordinary
cities by province and city prefix, excluding the placeholder name. -/
def districtCandidates (areaData : List AreaUnit) (areaCode : Str) : List AreaUnit :=
  let provinceCode := areaCode.take 2
  let cityCode := (areaCode.drop 2).take 2
  if provinceCode ∈ DIRECT_CITIES then
    areaData.filter (fun a => a.province == provinceCode && a.name ≠ szxName)
  else
    areaData.filter (fun a =>
      a.province == provinceCode && a.city == cityCode && a.name ≠ szxName)

/-- The source method `_resolveDistrictCode(areaCode)` with the random
draw passed in. -/
def _resolveDistrictCode (areaData : List AreaUnit) (r : Nat) (areaCode : Str) : Str :=
  if municipalPattern areaCode then
    let districts := districtCandidates areaData areaCode
    if h : 0 < districts.length then
      (districts.get ⟨r % districts.length, Nat.mod_lt r h⟩).code
    else areaCode
  else areaCode

/-- Modelled from the spec: the separate checksum verifier
`verifyChecksum(number)` (the repository delegates verification to the
external id-validator package): the number is 18 characters long and its
18th character equals the check code computed from the first 17. -/
def verifyChecksum (number : Str) : Bool :=
  number.length == 18 && (number.getD 17 '0' == _calculateCheckCode (number.take 17))

/-- A sample district-level dataset entry used to instantiate theorems
with hypotheses. -/
def sampleArea : AreaUnit :=
  ⟨"110101".toList, "11".toList, "01".toList, "东城区".toList⟩

/-- A fixed set of random draws used to instantiate theorems with
hypotheses. -/
def sampleDraws : Draws := ⟨0, 0, 0, 0, 0, 0⟩

/-- Modelled from the spec: the actual Gregorian day count of a month —
months 4, 6, 9 and 11 have 30 days, February has 29 exactly in a leap
year (divisible by 4 and not by 100, or divisible by 400), all other
months have 31. -/
def gregorianDaysInMonth (year m : Nat) : Nat :=
  if m = 4 ∨ m = 6 ∨ m = 9 ∨ m = 11 then 30
  else if m = 2 then
    (if (year % 4 = 0 ∧ year % 100 ≠ 0) ∨ year % 400 = 0 then 29 else 28)
  else 31

/-- JavaScript `Map.prototype.get`: the first entry with the key. -/
def mapGet {β : Type} (m : List (Str × β)) (k : Str) : Option β :=
  (m.find? (fun p => p.1 == k)).map (·.2)

/-- JavaScript `Map.prototype.set` (and plain-object assignment): update
an existing entry in place, otherwise append. -/
def mapSet {β : Type} : List (Str × β) → Str → β → List (Str × β)
  | [], k, v => [(k, v)]
  | p :: m, k, v => if p.1 == k then (k, v) :: m else p :: mapSet m k v

/-- The two derived maps filled by `_addAreaCodeMapping`. -/
structure AreaCache where
  areaCodeByName : List (Str × Str)
  nameByAreaCode : List (Str × Str)
deriving DecidableEq

/-- The source method `_addAreaCodeMapping(code, name)`: the name-to-code
map is only written when the name is absent; the code-to-name map is
written unconditionally. -/
def _addAreaCodeMapping (c : AreaCache) (code name : Str) : AreaCache :=
  { areaCodeByName :=
      if (mapGet c.areaCodeByName name).isSome then c.areaCodeByName
      else mapSet c.areaCodeByName name code,
    nameByAreaCode := mapSet c.nameByAreaCode code name }

/-- The province, city and district traversal of `_buildProvinceMaps`,
`_buildCityMaps` and `_buildAreaMaps`, abstracted as the ordered sequence
of `(code, name)` insertions it performs through `_addAreaCodeMapping`,
folded from the initially empty cache. -/
def buildMappings (inserts : List (Str × Str)) : AreaCache :=
  inserts.foldl (fun c p => _addAreaCodeMapping c p.1 p.2) ⟨[], []⟩

/-- The two lazily built fuzzy indexes of `_buildFuzzyAreaNameCache`:
`fuzzyAreaNameMap.prefix` and `fuzzyAreaNameMap.include`. -/
structure FuzzyCache where
  preIdx : List (Str × List Str)
  incIdx : List (Str × List Str)
deriving DecidableEq

/-- Appending a code to a bucket of the fuzzy index: create the bucket if
absent, then push the code unless already present. -/
def bucketAdd (m : List (Str × List Str)) (k : Str) (code : Str) :
    List (Str × List Str) :=
  match mapGet m k with
  | none => mapSet m k [code]
  | some l => if code ∈ l then m else mapSet m k (l ++ [code])

/-- The prefix buckets contributed by one name: its prefixes of length 1
up to `min(length, 3)`. -/
def addPrefixBuckets (m : List (Str × List Str)) (name code : Str) :
    List (Str × List Str) :=
  (List.range' 1 (min name.length 3)).foldl (fun m i => bucketAdd m (name.take i) code) m

/-- The inclusion buckets contributed by one name: one single-character
key per character of the name. -/
def addIncludeBuckets (m : List (Str × List Str)) (name code : Str) :
    List (Str × List Str) :=
  name.foldl (fun m c => bucketAdd m [c] code) m

/-- The source method `_buildFuzzyAreaNameCache()`: walk the
name-to-code entries in insertion order; names of length greater than one
contribute prefix buckets, every name contributes inclusion buckets. -/
def _buildFuzzyAreaNameCache (entries : List (Str × Str)) : FuzzyCache :=
  entries.foldl
    (fun fc p =>
      { preIdx := if p.1.length > 1 then addPrefixBuckets fc.preIdx p.1 p.2 else fc.preIdx,
        incIdx := addIncludeBuckets fc.incIdx p.1 p.2 })
    ⟨[], []⟩

/-- The fixed `commonCities` alias table of the generator. -/
def commonCities : List (Str × Str) :=
  [("北京".toList, "110000".toList),
   ("上海".toList, "310000".toList),
   ("天津".toList, "120000".toList),
   ("重庆".toList, "500000".toList),
   ("广州".toList, "440100".toList),
   ("深圳".toList, "440300".toList),
   ("武汉".toList, "420100".toList),
   ("南京".toList, "320100".toList),
   ("杭州".toList, "330100".toList),
   ("西安".toList, "610100".toList),
   ("成都".toList, "510100".toList)]

/-- The source method `_getAreaCodeByName(areaName)` over the
name-to-code map state, with the fuzzy cache built from it on demand:
exact lookup, then the common-city aliases, then the prefix bucket of the
whole input, then the inclusion bucket of the whole input. -/
def _getAreaCodeByName (byName : List (Str × Str)) (areaName : Str) : Option Str :=
  match mapGet byName areaName with
  | some c => some c
  | none =>
    match mapGet commonCities areaName with
    | some c => some c
    | none =>
      let fuzzy := _buildFuzzyAreaNameCache byName
      match mapGet fuzzy.preIdx areaName with
      | some (c :: _) => some c
      | _ =>
        match mapGet fuzzy.incIdx areaName with
        | some (c :: _) => some c
        | _ => none

/-- The exact tier of the resolution: direct name-to-code lookup. -/
def exactTier (byName : List (Str × Str)) (areaName : Str) : Option Str :=
  mapGet byName areaName

/-- The alias tier of the resolution: the common-city table. -/
def aliasTier (areaName : Str) : Option Str := mapGet commonCities areaName

/-- The prefix tier of the resolution: first code of the prefix bucket of
the whole input, if the bucket exists and is non-empty. -/
def preTier (byName : List (Str × Str)) (areaName : Str) : Option Str :=
  match mapGet (_buildFuzzyAreaNameCache byName).preIdx areaName with
  | some (c :: _) => some c
  | _ => none

/-- The inclusion tier of the resolution as implemented: first code of
the inclusion bucket keyed by the whole input, if it exists and is
non-empty. -/
def incTier (byName : List (Str × Str)) (areaName : Str) : Option Str :=
  match mapGet (_buildFuzzyAreaNameCache byName).incIdx areaName with
  | some (c :: _) => some c
  | _ => none

/-- Modelled from the spec: the character-inclusion tier as the claim
describes it — for each character of the input name in order, look up
the inclusion index at that character and return the first code of the
first character that has any match. -/
def firstCharInclude (inc : List (Str × List Str)) : Str → Option Str
  | [] => none
  | c :: rest =>
    match mapGet inc [c] with
    | some (x :: _) => some x
    | _ => firstCharInclude inc rest

/-- Modelled from the spec: the resolution procedure as the claim states
it, identical to `_getAreaCodeByName` except that the inclusion tier
iterates over the characters of the input name. -/
def codeForNameClaim (byName : List (Str × Str)) (areaName : Str) : Option Str :=
  match mapGet byName areaName with
  | some c => some c
  | none =>
    match mapGet commonCities areaName with
    | some c => some c
    | none =>
      let fuzzy := _buildFuzzyAreaNameCache byName
      match mapGet fuzzy.preIdx areaName with
      | some (c :: _) => some c
      | _ => firstCharInclude fuzzy.incIdx areaName

/-- The source method `generatePersonInfoByAreaAndAge(areaName, age)`,
modelled up to the point where it calls the presentation-layer
`generatePersonInfo`: it validates the arguments, resolves the area name
(falling back to the hardcoded default code on a miss), narrows
municipal codes to a district and computes the birthday from the age,
returning the resolved area code and birthday it passes on. -/
def generatePersonInfoByAreaAndAge (byName : List (Str × Str))
    (areaData : List AreaUnit) (todayYear : Nat) (dIdx rm rd : Nat)
    (areaName : Str) (age : Int) : Except String (Str × Str) :=
  if areaName.isEmpty then .error "地区名称不能为空"
  else if age < 0 || age > 120 then .error "年龄必须在0-120之间"
  else
    let areaCode := (_getAreaCodeByName byName areaName).getD "110101".toList
    let districtCode := _resolveDistrictCode areaData dIdx areaCode
    let birthday := _getBirthdayFromAge todayYear age.toNat rm rd
    .ok (districtCode, birthday)

/-- Whether an `Except` computation succeeded. -/
def exceptIsOk {e a : Type} : Except e a → Bool
  | .ok _ => true
  | .error _ => false

/-- Any sufficient fuel computes the canonical rendering `toDecChars`. -/
theorem toDecCharsAux_norm : ∀ f n, n < f → toDecCharsAux f n = toDecChars n := by
  intro f
  induction f using Nat.strong_induction_on with
  | _ f ih =>
    intro n hn
    match f, hn with
    | g + 1, hn =>
      by_cases h10 : n < 10
      · simp [toDecCharsAux, toDecChars, h10]
      · have hdiv : n / 10 < n := Nat.div_lt_self (by omega) (by omega)
        have h1 : toDecCharsAux (g + 1) n = toDecCharsAux g (n / 10) ++ [Nat.digitChar (n % 10)] := by
          simp [toDecCharsAux, h10]
        have h2 : toDecChars n = toDecCharsAux n (n / 10) ++ [Nat.digitChar (n % 10)] := by
          simp [toDecChars, toDecCharsAux, h10]
        rw [h1, h2, ih g (by omega) (n / 10) (by omega),
          ih n (by omega) (n / 10) (by omega)]

/-- Single-digit case of the decimal rendering. -/
theorem toDecChars_lt10 {n : Nat} (h : n < 10) : toDecChars n = [Nat.digitChar n] := by
  simp [toDecChars, toDecCharsAux, h]

/-- Recursive step of the decimal rendering. -/
theorem toDecChars_step {n : Nat} (h : 10 ≤ n) :
    toDecChars n = toDecChars (n / 10) ++ [Nat.digitChar (n % 10)] := by
  have hdiv : n / 10 < n := Nat.div_lt_self (by omega) (by omega)
  have h10 : ¬ n < 10 := by omega
  have h2 : toDecChars n = toDecCharsAux n (n / 10) ++ [Nat.digitChar (n % 10)] := by
    simp [toDecChars, toDecCharsAux, h10]
  rw [h2, toDecCharsAux_norm n (n / 10) (by omega)]

/-- Small digits evaluate to digit characters with the right value. -/
theorem digitVal_digitChar : ∀ d, d < 10 → digitVal (Nat.digitChar d) = d := by decide

/-- Small digits evaluate to decimal digit characters. -/
theorem isDigitChar_digitChar : ∀ d, d < 10 → isDigitChar (Nat.digitChar d) = true := by
  decide

/-- `parseIntChars` distributes over a final digit. -/
theorem parseIntChars_append_singleton (s : Str) (c : Char) :
    parseIntChars (s ++ [c]) = parseIntChars s * 10 + digitVal c := by
  simp [parseIntChars, List.foldl_append]

/-- `parseIntChars` inverts the decimal rendering. -/
theorem parseIntChars_toDecChars (n : Nat) : parseIntChars (toDecChars n) = n := by
  induction n using Nat.strong_induction_on with
  | _ n ih =>
    by_cases h : n < 10
    · rw [toDecChars_lt10 h]
      simp [parseIntChars, digitVal_digitChar n h]
    · rw [toDecChars_step (by omega), parseIntChars_append_singleton,
        ih (n / 10) (Nat.div_lt_self (by omega) (by omega)),
        digitVal_digitChar (n % 10) (by omega)]
      omega

/-- Every character of the decimal rendering is a digit. -/
theorem toDecChars_digits (n : Nat) : ∀ c ∈ toDecChars n, isDigitChar c = true := by
  induction n using Nat.strong_induction_on with
  | _ n ih =>
    by_cases h : n < 10
    · rw [toDecChars_lt10 h]
      intro c hc
      simp at hc
      subst hc
      exact isDigitChar_digitChar n h
    · rw [toDecChars_step (by omega)]
      intro c hc
      rcases List.mem_append.mp hc with h1 | h1
      · exact ih (n / 10) (Nat.div_lt_self (by omega) (by omega)) c h1
      · simp at h1
        subst h1
        exact isDigitChar_digitChar (n % 10) (by omega)

/-- Upper length bound of the decimal rendering. -/
theorem toDecChars_length_le : ∀ k n, 0 < k → n < 10 ^ k →
    (toDecChars n).length ≤ k := by
  intro k
  induction k with
  | zero => intro n h; omega
  | succ k ih =>
    intro n _ hn
    by_cases h : n < 10
    · rw [toDecChars_lt10 h]; simp
    · rw [toDecChars_step (by omega)]
      have hk : 0 < k := by
        by_contra hk0
        have : k = 0 := by omega
        subst this
        simp [pow_succ] at hn
        omega
      have hdiv : n / 10 < 10 ^ k := by
        apply Nat.div_lt_of_lt_mul
        rw [pow_succ] at hn
        omega
      have := ih (n / 10) hk hdiv
      simp [List.length_append]
      omega

/-- Lower length bound of the decimal rendering. -/
theorem toDecChars_length_ge : ∀ k n, 10 ^ k ≤ n →
    k + 1 ≤ (toDecChars n).length := by
  intro k
  induction k with
  | zero =>
    intro n _
    by_cases h : n < 10
    · rw [toDecChars_lt10 h]; simp
    · rw [toDecChars_step (by omega)]; simp
  | succ k ih =>
    intro n hn
    have h10 : 10 ≤ n := by
      have : 10 ^ 1 ≤ 10 ^ (k + 1) := Nat.pow_le_pow_right (by omega) (by omega)
      simp at this
      omega
    rw [toDecChars_step h10]
    have hdiv : 10 ^ k ≤ n / 10 := by
      rw [Nat.le_div_iff_mul_le (by omega)]
      rw [pow_succ] at hn
      omega
    have := ih (n / 10) hdiv
    simp [List.length_append]
    omega

/-- Exact length of a four-digit year rendering. -/
theorem toDecChars_length_year {y : Nat} (h1 : 1000 ≤ y) (h2 : y ≤ 9999) :
    (toDecChars y).length = 4 := by
  have hle := toDecChars_length_le 4 y (by omega) (by norm_num; omega)
  have hge := toDecChars_length_ge 3 y (by norm_num; omega)
  omega

/-- Leading zeros do not change the parsed value. -/
theorem parseIntChars_replicate_zero (k : Nat) (s : Str) :
    parseIntChars (List.replicate k '0' ++ s) = parseIntChars s := by
  induction k with
  | zero => simp
  | succ k ih =>
    have : List.replicate (k + 1) '0' ++ s = '0' :: (List.replicate k '0' ++ s) := by
      simp [List.replicate_succ]
    rw [this]
    simp only [parseIntChars, List.foldl_cons] at *
    have h0 : digitVal '0' = 0 := by decide
    simpa [h0] using ih

/-- `_pad` does not change the parsed value. -/
theorem parseIntChars_pad (n k : Nat) : parseIntChars (_pad n k) = n := by
  rw [_pad, parseIntChars_replicate_zero, parseIntChars_toDecChars]

/-- Length of `_pad` when the number fits in the field. -/
theorem pad_length {n k : Nat} (hk : 0 < k) (hn : n < 10 ^ k) :
    (_pad n k).length = k := by
  have := toDecChars_length_le k n hk hn
  simp [_pad, List.length_append]
  omega

/-- Every character of `_pad` is a digit. -/
theorem pad_digits (n k : Nat) : ∀ c ∈ _pad n k, isDigitChar c = true := by
  intro c hc
  rcases List.mem_append.mp hc with h | h
  · have := List.eq_of_mem_replicate h
    subst this
    decide
  · exact toDecChars_digits n c h

/-- `isDigits` unpacked into length and character facts. -/
theorem isDigits_iff {s : Str} {n : Nat} :
    isDigits s n = true ↔ s.length = n ∧ ∀ c ∈ s, isDigitChar c = true := by
  simp [isDigits, List.all_eq_true]

/-- Validation succeeds exactly when all three checks pass. -/
theorem validate_ok_iff {o : IdCardOptions} :
    _validateIdCardOptions o = .ok () ↔
      (truthyStr o.areaCode && !(isDigits (o.areaCode.getD []) 6)) = false ∧
      (truthyStr o.birthday && !(isDigits (o.birthday.getD []) 8)) = false ∧
      (o.gender.isSome && !(o.gender.getD 0 == 0 || o.gender.getD 0 == 1)) = false := by
  unfold _validateIdCardOptions
  split_ifs with h1 h2 h3 <;> simp_all

/-- After successful validation the effective gender is 0 or 1. -/
theorem effGender_cases {d : Draws} {o : IdCardOptions}
    (h : _validateIdCardOptions o = .ok ()) :
    effGender d o = 0 ∨ effGender d o = 1 := by
  rcases validate_ok_iff.mp h with ⟨-, -, h3⟩
  cases hg : o.gender with
  | none =>
    simp [effGender, hg]
    omega
  | some g =>
    rw [hg] at h3
    simp at h3
    simp [effGender, hg]
    rcases Decidable.em (g = 0) with h0 | h0
    · left; exact h0
    · right; exact h3 h0

-- The bounded behaviour of the sequence-number adjustment, checked by
-- exhaustive evaluation.
set_option maxRecDepth 1000000 in
theorem seqNum_bounded : ∀ g, g < 2 → ∀ m, m < 999 →
    seqNum g (m + 1) % 2 = g ∧ 1 ≤ seqNum g (m + 1) ∧ seqNum g (m + 1) ≤ 999 := by
  decide

/-- Ten squared, for instantiating `pad_length`. -/
theorem pow_two_ten : (10 : Nat) ^ 2 = 100 := by norm_num

/-- Ten cubed, for instantiating `pad_length`. -/
theorem pow_three_ten : (10 : Nat) ^ 3 = 1000 := by norm_num

/-- Two-character padding of a number below 100. -/
theorem pad2_length {n : Nat} (h : n < 100) : (_pad n 2).length = 2 :=
  pad_length (by omega) (by rw [pow_two_ten]; exact h)

/-- Three-character padding of a number below 1000. -/
theorem pad3_length {n : Nat} (h : n < 1000) : (_pad n 3).length = 3 :=
  pad_length (by omega) (by rw [pow_three_ten]; exact h)

/-- Facts about the sequence code string for a valid gender and draw. -/
theorem seqCode_facts {g n0 : Nat} (hg : g = 0 ∨ g = 1) (h1 : 1 ≤ n0) (h2 : n0 ≤ 999) :
    parseIntChars (_generateSequenceCode g n0) % 2 = g ∧
    1 ≤ parseIntChars (_generateSequenceCode g n0) ∧
    parseIntChars (_generateSequenceCode g n0) ≤ 999 ∧
    (_generateSequenceCode g n0).length = 3 ∧
    ∀ c ∈ _generateSequenceCode g n0, isDigitChar c = true := by
  obtain ⟨m, rfl⟩ : ∃ m, n0 = m + 1 := ⟨n0 - 1, by omega⟩
  have hb := seqNum_bounded g (by omega) m (by omega)
  unfold _generateSequenceCode
  rw [parseIntChars_pad]
  exact ⟨hb.1, hb.2.1, hb.2.2, pad3_length (by omega), pad_digits _ _⟩

/-- The day count is always positive and at most 31. -/
theorem monthMaxDay_bounds (year : Nat) (month : Str) :
    28 ≤ monthMaxDay year month ∧ monthMaxDay year month ≤ 31 := by
  unfold monthMaxDay
  split_ifs <;> omega

/-- The random birthday unfolded into its three components. -/
theorem randomBirthday_struct (ry rm rd : Nat) :
    _getRandomBirthday ry rm rd =
      toDecChars (1950 + ry % 56) ++ _pad (rm % 12 + 1) 2 ++
      _pad (rd % monthMaxDay (1950 + ry % 56) (_pad (rm % 12 + 1) 2) + 1) 2 := rfl

/-- The random year always renders in exactly four characters. -/
theorem randomYear_length (ry : Nat) : (toDecChars (1950 + ry % 56)).length = 4 :=
  toDecChars_length_year (by omega) (by omega)

/-- The random day draw is below 100. -/
theorem randomDay_lt (rd year : Nat) (month : Str) :
    rd % monthMaxDay year month + 1 < 100 := by
  have h := monthMaxDay_bounds year month
  have := Nat.mod_lt rd (show 0 < monthMaxDay year month by omega)
  omega

/-- The random birthday is an 8-character digit string. -/
theorem randomBirthday_facts (ry rm rd : Nat) :
    (_getRandomBirthday ry rm rd).length = 8 ∧
    ∀ c ∈ _getRandomBirthday ry rm rd, isDigitChar c = true := by
  rw [randomBirthday_struct]
  have h1 := randomYear_length ry
  have h2 := @pad2_length (rm % 12 + 1) (by omega)
  have h3 := pad2_length (randomDay_lt rd (1950 + ry % 56) (_pad (rm % 12 + 1) 2))
  constructor
  · simp [List.length_append, h1, h2, h3]
  · intro c hc
    rcases List.mem_append.mp hc with hc | hc
    · rcases List.mem_append.mp hc with hc | hc
      · exact toDecChars_digits _ c hc
      · exact pad_digits _ _ c hc
    · exact pad_digits _ _ c hc

/-- After successful validation the effective birthday is an 8-character
digit string. -/
theorem effBirthday_spec {d : Draws} {o : IdCardOptions}
    (hval : _validateIdCardOptions o = .ok ()) :
    (effBirthday d o).length = 8 ∧ ∀ c ∈ effBirthday d o, isDigitChar c = true := by
  rcases validate_ok_iff.mp hval with ⟨-, h2, -⟩
  unfold effBirthday
  cases hob : o.birthday with
  | none => exact randomBirthday_facts d.ry d.rm d.rd
  | some s =>
    by_cases hemp : s.isEmpty
    · simp [hemp]
      exact randomBirthday_facts d.ry d.rm d.rd
    · simp [hemp]
      rw [hob] at h2
      simp [truthyStr, hemp] at h2
      exact isDigits_iff.mp h2

/-- Membership in the eligible-code list comes from a dataset entry whose
code does not end in "00". -/
theorem eligibleCodes_sub {areaData : List AreaUnit} {c : Str}
    (h : c ∈ eligibleCodes areaData) :
    ∃ a ∈ areaData, a.code = c ∧ endsWith00 c = false := by
  simp only [eligibleCodes, List.mem_map, List.mem_filter] at h
  obtain ⟨a, ⟨ha, h00⟩, rfl⟩ := h
  exact ⟨a, ha, rfl, by simpa using h00⟩

/-- The random area code is drawn from the eligible-code list. -/
theorem getRandomAreaCode_mem {areaData : List AreaUnit}
    (h : eligibleCodes areaData ≠ []) (idx : Nat) :
    _getRandomAreaCode areaData idx ∈ eligibleCodes areaData := by
  unfold _getRandomAreaCode
  have hpos : 0 < (eligibleCodes areaData).length := List.length_pos.mpr h
  have hlt : idx % (eligibleCodes areaData).length < (eligibleCodes areaData).length :=
    Nat.mod_lt _ hpos
  rw [List.getD_eq_getElem?_getD, List.getElem?_eq_getElem hlt]
  simp only [Option.getD_some]
  exact List.getElem_mem hlt

/-- After successful validation the effective area code is a 6-character
digit string, given that the dataset codes are. -/
theorem effAreaCode_spec {areaData : List AreaUnit} {d : Draws} {o : IdCardOptions}
    (hdata : ∀ a ∈ areaData, a.code.length = 6 ∧ ∀ c ∈ a.code, isDigitChar c = true)
    (hne : eligibleCodes areaData ≠ [])
    (hval : _validateIdCardOptions o = .ok ()) :
    (effAreaCode areaData d o).length = 6 ∧
    ∀ c ∈ effAreaCode areaData d o, isDigitChar c = true := by
  have hrand : ∀ idx, (_getRandomAreaCode areaData idx).length = 6 ∧
      ∀ c ∈ _getRandomAreaCode areaData idx, isDigitChar c = true := by
    intro idx
    obtain ⟨a, ha, hac, -⟩ := eligibleCodes_sub (getRandomAreaCode_mem hne idx)
    rw [← hac]
    exact hdata a ha
  rcases validate_ok_iff.mp hval with ⟨h1, -, -⟩
  unfold effAreaCode
  cases hoa : o.areaCode with
  | none => exact hrand _
  | some s =>
    by_cases hemp : s.isEmpty
    · simp [hemp]
      exact hrand _
    · simp [hemp]
      rw [hoa] at h1
      simp [truthyStr, hemp] at h1
      exact isDigits_iff.mp h1

/-- After successful validation, `generateIdCard` returns the 17-character
base followed by its check code. -/
theorem generateIdCard_eq {areaData : List AreaUnit} {d : Draws} {o : IdCardOptions}
    (h : _validateIdCardOptions o = .ok ()) :
    generateIdCard areaData d o =
      .ok ((effAreaCode areaData d o ++ effBirthday d o ++
            _generateSequenceCode (effGender d o) (d.seq % 999 + 1)) ++
           [_calculateCheckCode (effAreaCode areaData d o ++ effBirthday d o ++
            _generateSequenceCode (effGender d o) (d.seq % 999 + 1))]) := by
  unfold generateIdCard
  rw [h]

/-- Reading a list at an index through `getD` equals reading the dropped
tail at zero. -/
theorem getD_eq_drop_getD (l : Str) (n : Nat) (c : Char) :
    l.getD n c = (l.drop n).getD 0 c := by
  simp [List.getD_eq_getElem?_getD, List.getElem?_drop]

/-- C1: every identity number produced by `generateIdCard` under
structurally valid (or absent) options is an 18-character string whose
first 17 characters are digits and whose 18th character equals the check
code obtained from the first 17 characters by the fixed weighted sum
modulo 11 and the fixed lookup table; equivalently, checksum verification
succeeds on every output. -/
theorem generateIdCard_checkCode
    (areaData : List AreaUnit) (d : Draws) (o : IdCardOptions)
    (hdata : ∀ a ∈ areaData, a.code.length = 6 ∧ ∀ c ∈ a.code, isDigitChar c = true)
    (hne : eligibleCodes areaData ≠ [])
    (hval : _validateIdCardOptions o = .ok ()) :
    ∃ idNum, generateIdCard areaData d o = .ok idNum ∧
      idNum.length = 18 ∧
      idNum.drop 17 = [_calculateCheckCode (idNum.take 17)] ∧
      (∀ c ∈ idNum.take 17, isDigitChar c = true) ∧
      verifyChecksum idNum = true := by
  obtain ⟨hAl, hAd⟩ := effAreaCode_spec hdata hne hval
  obtain ⟨hBl, hBd⟩ := @effBirthday_spec d o hval
  obtain ⟨-, -, -, hSl, hSd⟩ :=
    @seqCode_facts (effGender d o) (d.seq % 999 + 1)
      (effGender_cases hval) (by omega) (by omega)
  set A := effAreaCode areaData d o with hA
  set B := effBirthday d o with hB
  set S := _generateSequenceCode (effGender d o) (d.seq % 999 + 1) with hS
  have hbase : (A ++ B ++ S).length = 17 := by
    simp [List.length_append, hAl, hBl, hSl]
  have htake : ((A ++ B ++ S) ++ [_calculateCheckCode (A ++ B ++ S)]).take 17 =
      A ++ B ++ S := List.take_left' hbase
  have hdrop : ((A ++ B ++ S) ++ [_calculateCheckCode (A ++ B ++ S)]).drop 17 =
      [_calculateCheckCode (A ++ B ++ S)] := List.drop_left' hbase
  refine ⟨_, generateIdCard_eq hval, ?_, ?_, ?_, ?_⟩
  · simp [List.length_append, hAl, hBl, hSl]
  · rw [hdrop, htake]
  · rw [htake]
    intro c hc
    rcases List.mem_append.mp hc with hc | hc
    · rcases List.mem_append.mp hc with hc | hc
      · exact hAd c hc
      · exact hBd c hc
    · exact hSd c hc
  · unfold verifyChecksum
    rw [htake, getD_eq_drop_getD, hdrop]
    simp [List.length_append, hAl, hBl, hSl]

/-- Witness: the C1 theorem applied to a concrete dataset, draw vector and
the empty option record. -/
theorem generateIdCard_checkCode_witness :
    ∃ idNum, generateIdCard [sampleArea] sampleDraws ⟨none, none, none⟩ = .ok idNum ∧
      idNum.length = 18 ∧
      idNum.drop 17 = [_calculateCheckCode (idNum.take 17)] ∧
      (∀ c ∈ idNum.take 17, isDigitChar c = true) ∧
      verifyChecksum idNum = true :=
  generateIdCard_checkCode [sampleArea] sampleDraws ⟨none, none, none⟩
    (by decide) (by decide) rfl

/-- Validation accepts a 6-digit area code, an 8-digit birthday and a
binary gender. -/
theorem validate_ok_of_valid {a b : Str} {g : Nat}
    (ha : isDigits a 6 = true) (hb : isDigits b 8 = true) (hg : g = 0 ∨ g = 1) :
    _validateIdCardOptions ⟨some a, some b, some g⟩ = .ok () := by
  rw [validate_ok_iff]
  refine ⟨by simp [truthyStr, ha], by simp [truthyStr, hb], ?_⟩
  rcases hg with rfl | rfl <;> simp

/-- A supplied non-empty area code is used unchanged. -/
theorem effAreaCode_some {areaData : List AreaUnit} {d : Draws} {a : Str}
    {bd : Option Str} {g : Option Nat} (hne : a.isEmpty = false) :
    effAreaCode areaData d ⟨some a, bd, g⟩ = a := by
  simp [effAreaCode, hne]

/-- A supplied non-empty birthday is used unchanged. -/
theorem effBirthday_some {d : Draws} {ac : Option Str} {b : Str} {g : Option Nat}
    (hne : b.isEmpty = false) :
    effBirthday d ⟨ac, some b, g⟩ = b := by
  simp [effBirthday, hne]

/-- Positional slices of a 17+1-character identity number built from a
6-character area code and an 8-character birthday. -/
theorem idSlices {a b rest : Str} (hal : a.length = 6) (hbl : b.length = 8) :
    (a ++ b ++ rest).take 6 = a ∧
    jsSubstring (a ++ b ++ rest) 6 14 = b ∧
    jsSubstring (a ++ b ++ rest) 6 10 = b.take 4 ∧
    jsSubstring (a ++ b ++ rest) 10 12 = (b.drop 4).take 2 ∧
    jsSubstring (a ++ b ++ rest) 12 14 = (b.drop 6).take 2 := by
  have hassoc : a ++ b ++ rest = a ++ (b ++ rest) := List.append_assoc a b rest
  have hdrop6 : (a ++ b ++ rest).drop 6 = b ++ rest := by
    rw [hassoc]
    exact List.drop_left' hal
  have htake6 : (a ++ b ++ rest).take 6 = a := by
    rw [hassoc]
    exact List.take_left' hal
  have hdrop10 : (a ++ b ++ rest).drop 10 = b.drop 4 ++ rest := by
    have : (10 : Nat) = 6 + 4 := by omega
    rw [this, ← List.drop_drop, hdrop6]
    exact List.drop_append_of_le_length (by omega)
  have hdrop12 : (a ++ b ++ rest).drop 12 = b.drop 6 ++ rest := by
    have : (12 : Nat) = 6 + 6 := by omega
    rw [this, ← List.drop_drop, hdrop6]
    exact List.drop_append_of_le_length (by omega)
  have hlen4 : (b.drop 4).length = 4 := by
    rw [List.length_drop]
    omega
  have hlen6 : (b.drop 6).length = 2 := by
    rw [List.length_drop]
    omega
  refine ⟨htake6, ?_, ?_, ?_, ?_⟩
  · rw [jsSubstring, List.drop_take, hdrop6]
    exact List.take_left' hbl
  · rw [jsSubstring, List.drop_take, hdrop6]
    exact List.take_append_of_le_length (by omega)
  · rw [jsSubstring, List.drop_take, hdrop10]
    exact List.take_append_of_le_length (by omega)
  · rw [jsSubstring, List.drop_take, hdrop12]
    exact List.take_append_of_le_length (by omega)

/-- C2: for any 6-digit region code, 8-digit birth date and gender in
{0, 1}, decoding the number produced by `generateIdCard` with those
options recovers exactly the supplied region code (characters 1-6) and
the supplied birth date (characters 7-14, whose year, month and day are
the values `_extractInfoFromIdCard` extracts). -/
theorem generateIdCard_decode_roundtrip
    (areaData : List AreaUnit) (d : Draws) (today : Date) (a b : Str) (g : Nat)
    (ha : isDigits a 6 = true) (hb : isDigits b 8 = true) (hg : g = 0 ∨ g = 1) :
    ∃ idNum, generateIdCard areaData d ⟨some a, some b, some g⟩ = .ok idNum ∧
      idNum.take 6 = a ∧
      jsSubstring idNum 6 14 = b ∧
      (_extractInfoFromIdCard idNum today).birthYear = parseIntChars (b.take 4) ∧
      (_extractInfoFromIdCard idNum today).birthMonth = parseIntChars ((b.drop 4).take 2) ∧
      (_extractInfoFromIdCard idNum today).birthDay = parseIntChars (b.drop 6) := by
  have hal : a.length = 6 := (isDigits_iff.mp ha).1
  have hbl : b.length = 8 := (isDigits_iff.mp hb).1
  have haemp : a.isEmpty = false := by cases a <;> simp_all
  have hbemp : b.isEmpty = false := by cases b <;> simp_all
  have hval := validate_ok_of_valid ha hb hg
  have heq := @generateIdCard_eq areaData d _ hval
  rw [effAreaCode_some haemp, effBirthday_some hbemp] at heq
  set S := _generateSequenceCode (effGender d ⟨some a, some b, some g⟩) (d.seq % 999 + 1)
    with hS
  set base := a ++ b ++ S with hbase
  have hassoc : base ++ [_calculateCheckCode base] =
      a ++ b ++ (S ++ [_calculateCheckCode base]) := by
    rw [hbase]
    simp [List.append_assoc]
  obtain ⟨t6, s614, s610, s1012, s1214⟩ :=
    @idSlices a b (S ++ [_calculateCheckCode base]) hal hbl
  have hdt : (b.drop 6).take 2 = b.drop 6 :=
    List.take_of_length_le (by rw [List.length_drop]; omega)
  refine ⟨base ++ [_calculateCheckCode base], heq, ?_, ?_, ?_, ?_, ?_⟩
  · rw [hassoc]
    exact t6
  · rw [hassoc]
    exact s614
  · rw [_extractInfoFromIdCard]
    rw [hassoc, s610]
  · rw [_extractInfoFromIdCard]
    rw [hassoc, s1012]
  · rw [_extractInfoFromIdCard]
    rw [hassoc, s1214, hdt]

/-- Witness: the C2 theorem applied to the Beijing Dongcheng code, the
birth date 1990-01-01 and male gender. -/
theorem generateIdCard_decode_roundtrip_witness :
    ∃ idNum, generateIdCard [] sampleDraws
        ⟨some "110101".toList, some "19900101".toList, some 1⟩ = .ok idNum ∧
      idNum.take 6 = "110101".toList ∧
      jsSubstring idNum 6 14 = "19900101".toList ∧
      (_extractInfoFromIdCard idNum ⟨2026, 10, 12⟩).birthYear =
        parseIntChars ("19900101".toList.take 4) ∧
      (_extractInfoFromIdCard idNum ⟨2026, 10, 12⟩).birthMonth =
        parseIntChars (("19900101".toList.drop 4).take 2) ∧
      (_extractInfoFromIdCard idNum ⟨2026, 10, 12⟩).birthDay =
        parseIntChars ("19900101".toList.drop 6) :=
  generateIdCard_decode_roundtrip [] sampleDraws ⟨2026, 10, 12⟩
    "110101".toList "19900101".toList 1 (by decide) (by decide) (Or.inr rfl)

/-- C3: for a gender in {0, 1} and any possible random draw in [1, 999],
the numeric value of the 3-character sequence code is odd exactly for
males, always lies in [1, 999], and the code is three characters long. -/
theorem sequenceCode_parity (g num0 : Nat) (hg : g = 0 ∨ g = 1)
    (h1 : 1 ≤ num0) (h2 : num0 ≤ 999) :
    (parseIntChars (_generateSequenceCode g num0) % 2 = 1 ↔ g = 1) ∧
    1 ≤ parseIntChars (_generateSequenceCode g num0) ∧
    parseIntChars (_generateSequenceCode g num0) ≤ 999 ∧
    (_generateSequenceCode g num0).length = 3 := by
  obtain ⟨hp, hlo, hhi, hlen, -⟩ := seqCode_facts hg h1 h2
  refine ⟨⟨fun hodd => by omega, fun h1g => by omega⟩, hlo, hhi, hlen⟩

/-- Witness: the C3 theorem applied to male gender and the draw 6. -/
theorem sequenceCode_parity_witness :
    (parseIntChars (_generateSequenceCode 1 6) % 2 = 1 ↔ 1 = 1) ∧
    1 ≤ parseIntChars (_generateSequenceCode 1 6) ∧
    parseIntChars (_generateSequenceCode 1 6) ≤ 999 ∧
    (_generateSequenceCode 1 6).length = 3 :=
  sequenceCode_parity 1 6 (Or.inr rfl) (by omega) (by omega)

/-- A candidate produced by `districtCandidates` is a dataset entry that is
not the placeholder district. -/
theorem districtCandidates_mem {areaData : List AreaUnit} {areaCode : Str}
    {a : AreaUnit} (h : a ∈ districtCandidates areaData areaCode) :
    a ∈ areaData ∧ a.name ≠ szxName := by
  simp only [districtCandidates] at h
  split_ifs at h
  · rw [List.mem_filter] at h
    refine ⟨h.1, ?_⟩
    have h2 := h.2
    simp at h2
    tauto
  · rw [List.mem_filter] at h
    refine ⟨h.1, ?_⟩
    have h2 := h.2
    simp at h2
    tauto

/-- C4: `_resolveDistrictCode` on a municipal-level code returns the code
of one of the matching non-placeholder districts (province-only matching
for direct-administered municipalities, province-and-city matching
otherwise), hence a 6-character code not ending "00" whenever such a
district exists and the dataset codes are district-level; on a
non-municipal code, or when no candidate exists, it returns the input
unchanged. -/
theorem resolveDistrictCode_spec
    (areaData : List AreaUnit) (r : Nat) (areaCode : Str)
    (hdata : ∀ a ∈ areaData, a.name ≠ szxName →
      a.code.length = 6 ∧ endsWith00 a.code = false) :
    (municipalPattern areaCode = true → districtCandidates areaData areaCode ≠ [] →
      _resolveDistrictCode areaData r areaCode ∈
        (districtCandidates areaData areaCode).map (·.code) ∧
      (_resolveDistrictCode areaData r areaCode).length = 6 ∧
      endsWith00 (_resolveDistrictCode areaData r areaCode) = false) ∧
    (municipalPattern areaCode = false →
      _resolveDistrictCode areaData r areaCode = areaCode) ∧
    (districtCandidates areaData areaCode = [] →
      _resolveDistrictCode areaData r areaCode = areaCode) := by
  refine ⟨?_, ?_, ?_⟩
  · intro hmun hne
    have hpos : 0 < (districtCandidates areaData areaCode).length :=
      List.length_pos.mpr hne
    have hres : _resolveDistrictCode areaData r areaCode =
        ((districtCandidates areaData areaCode).get
          ⟨r % (districtCandidates areaData areaCode).length, Nat.mod_lt r hpos⟩).code := by
      unfold _resolveDistrictCode
      simp only [hmun, if_true]
      rw [dif_pos hpos]
    have hmem := List.get_mem (districtCandidates areaData areaCode)
      (r % (districtCandidates areaData areaCode).length) (Nat.mod_lt r hpos)
    obtain ⟨hin, hname⟩ := districtCandidates_mem hmem
    obtain ⟨hl, h00⟩ := hdata _ hin hname
    rw [hres]
    exact ⟨List.mem_map_of_mem _ hmem, hl, h00⟩
  · intro hmun
    unfold _resolveDistrictCode
    simp [hmun]
  · intro hempty
    by_cases hmun : municipalPattern areaCode
    · unfold _resolveDistrictCode
      simp [hmun, hempty]
    · unfold _resolveDistrictCode
      simp [hmun]

/-- Witness: resolving the municipal-level Beijing code against a dataset
holding one concrete district yields that district's code. -/
theorem resolveDistrictCode_spec_witness :
    _resolveDistrictCode [sampleArea] 0 "110100".toList ∈
      (districtCandidates [sampleArea] "110100".toList).map (·.code) ∧
    (_resolveDistrictCode [sampleArea] 0 "110100".toList).length = 6 ∧
    endsWith00 (_resolveDistrictCode [sampleArea] 0 "110100".toList) = false :=
  (resolveDistrictCode_spec [sampleArea] 0 "110100".toList (by decide)).1
    (by decide) (by decide)

/-- The boolean leap-year test agrees with the Gregorian rule. -/
theorem isLeapYear_iff (y : Nat) :
    _isLeapYear y = true ↔ (y % 4 = 0 ∧ y % 100 ≠ 0) ∨ y % 400 = 0 := by
  simp [_isLeapYear]

/-- The string-compared day count of the source agrees with the Gregorian
day count on padded month numbers. -/
theorem monthMaxDay_eq_gregorian (year : Nat) : ∀ k, k < 12 →
    monthMaxDay year (_pad (k + 1) 2) = gregorianDaysInMonth year (k + 1) := by
  intro k hk
  interval_cases k
  case «1» =>
    show (if _isLeapYear year then 29 else 28) = gregorianDaysInMonth year 2
    by_cases h : (year % 4 = 0 ∧ year % 100 ≠ 0) ∨ year % 400 = 0
    · have hb : _isLeapYear year = true := (isLeapYear_iff year).mpr h
      simp [gregorianDaysInMonth, hb, h]
    · have hb : _isLeapYear year ≠ true := fun hc => h ((isLeapYear_iff year).mp hc)
      simp [gregorianDaysInMonth, hb, h]
  all_goals rfl

/-- Decomposition of an 8-character year-month-day string. -/
theorem ymdParts {Y M D : Str} (hY : Y.length = 4) (hM : M.length = 2)
    (hD : D.length = 2) :
    (Y ++ M ++ D).length = 8 ∧
    (Y ++ M ++ D).take 4 = Y ∧
    ((Y ++ M ++ D).drop 4).take 2 = M ∧
    (Y ++ M ++ D).drop 6 = D := by
  have hassoc : Y ++ M ++ D = Y ++ (M ++ D) := List.append_assoc Y M D
  have hdrop4 : (Y ++ M ++ D).drop 4 = M ++ D := by
    rw [hassoc]
    exact List.drop_left' hY
  refine ⟨by simp [hY, hM, hD], ?_, ?_, ?_⟩
  · rw [hassoc]
    exact List.take_left' hY
  · rw [hdrop4]
    exact List.take_left' hM
  · have : (6 : Nat) = 4 + 2 := by omega
    rw [this, ← List.drop_drop, hdrop4]
    exact List.drop_left' hM

/-- C9: every randomly generated birth date is an 8-digit string whose
year lies in [1950, 2005], whose month lies in [1, 12] and whose day lies
between 1 and the actual Gregorian day count of that month of that year;
moreover the leap day 2000-02-29 is reachable. -/
theorem randomBirthday_valid (ry rm rd : Nat) :
    (_getRandomBirthday ry rm rd).length = 8 ∧
    (1950 ≤ parseIntChars ((_getRandomBirthday ry rm rd).take 4) ∧
     parseIntChars ((_getRandomBirthday ry rm rd).take 4) ≤ 2005) ∧
    (1 ≤ parseIntChars (jsSubstring (_getRandomBirthday ry rm rd) 4 6) ∧
     parseIntChars (jsSubstring (_getRandomBirthday ry rm rd) 4 6) ≤ 12) ∧
    (1 ≤ parseIntChars (jsSubstring (_getRandomBirthday ry rm rd) 6 8) ∧
     parseIntChars (jsSubstring (_getRandomBirthday ry rm rd) 6 8) ≤
       gregorianDaysInMonth (parseIntChars ((_getRandomBirthday ry rm rd).take 4))
         (parseIntChars (jsSubstring (_getRandomBirthday ry rm rd) 4 6))) ∧
    (∃ a b c, _getRandomBirthday a b c = "20000229".toList) := by
  have hY := randomYear_length ry
  have hM := @pad2_length (rm % 12 + 1) (by omega)
  have hmd := monthMaxDay_bounds (1950 + ry % 56) (_pad (rm % 12 + 1) 2)
  have hdlt := randomDay_lt rd (1950 + ry % 56) (_pad (rm % 12 + 1) 2)
  have hD := pad2_length hdlt
  obtain ⟨hlen, htake4, hmid, hdrop6⟩ := ymdParts hY hM hD
  have hstruct := randomBirthday_struct ry rm rd
  have hsub46 : jsSubstring (_getRandomBirthday ry rm rd) 4 6 = _pad (rm % 12 + 1) 2 := by
    rw [hstruct, jsSubstring, List.drop_take, hmid]
  have hsub68 : jsSubstring (_getRandomBirthday ry rm rd) 6 8 =
      _pad (rd % monthMaxDay (1950 + ry % 56) (_pad (rm % 12 + 1) 2) + 1) 2 := by
    rw [hstruct, jsSubstring, List.drop_take, hdrop6]
    exact List.take_of_length_le (by omega)
  have htk : (_getRandomBirthday ry rm rd).take 4 = toDecChars (1950 + ry % 56) := by
    rw [hstruct]
    exact htake4
  refine ⟨by rw [hstruct]; exact hlen, ?_, ?_, ?_, ⟨50, 1, 28, by decide⟩⟩
  · rw [htk, parseIntChars_toDecChars]
    omega
  · rw [hsub46, parseIntChars_pad]
    omega
  · rw [hsub68, parseIntChars_pad, htk, hsub46, parseIntChars_pad,
      parseIntChars_toDecChars]
    have hmod := Nat.mod_lt rd
      (show 0 < monthMaxDay (1950 + ry % 56) (_pad (rm % 12 + 1) 2) by omega)
    have hgreg := monthMaxDay_eq_gregorian (1950 + ry % 56) (rm % 12) (by omega)
    constructor
    · omega
    · rw [← hgreg]
      omega

/-- The extracted birth year is the parse of characters 7-10. -/
theorem extractInfo_birthYear (idCard : Str) (today : Date) :
    (_extractInfoFromIdCard idCard today).birthYear =
      parseIntChars (jsSubstring idCard 6 10) := rfl

/-- The extracted birth month is the parse of characters 11-12. -/
theorem extractInfo_birthMonth (idCard : Str) (today : Date) :
    (_extractInfoFromIdCard idCard today).birthMonth =
      parseIntChars (jsSubstring idCard 10 12) := rfl

/-- The extracted birth day is the parse of characters 13-14. -/
theorem extractInfo_birthDay (idCard : Str) (today : Date) :
    (_extractInfoFromIdCard idCard today).birthDay =
      parseIntChars (jsSubstring idCard 12 14) := rfl

/-- The extracted age written through the extracted birth fields. -/
theorem extractInfo_age_def (idCard : Str) (today : Date) :
    (_extractInfoFromIdCard idCard today).age =
      (today.year : Int) - (parseIntChars (jsSubstring idCard 6 10) : Int) -
      (if today.month < parseIntChars (jsSubstring idCard 10 12) ∨
          (today.month = parseIntChars (jsSubstring idCard 10 12) ∧
           today.day < parseIntChars (jsSubstring idCard 12 14)) then 1 else 0) := rfl

/-- The three birth fields extracted from an identity number assembled
from a 6-character prefix and a year-month-day block. -/
theorem extractInfo_parts {a Y M D rest : Str}
    (hal : a.length = 6) (hY : Y.length = 4) (hM : M.length = 2) (hD : D.length = 2) :
    jsSubstring (a ++ (Y ++ M ++ D) ++ rest) 6 10 = Y ∧
    jsSubstring (a ++ (Y ++ M ++ D) ++ rest) 10 12 = M ∧
    jsSubstring (a ++ (Y ++ M ++ D) ++ rest) 12 14 = D := by
  obtain ⟨hbl, hp4, hpm, hp6⟩ := ymdParts hY hM hD
  obtain ⟨-, -, s610, s1012, s1214⟩ := @idSlices a (Y ++ M ++ D) rest hal hbl
  refine ⟨?_, ?_, ?_⟩
  · rw [s610, hp4]
  · rw [s1012, hpm]
  · rw [s1214, hp6]
    exact List.take_of_length_le (by omega)

/-- C8: the age computed by decoding equals the current year minus the
birth year, decremented by one exactly when the current month/day precedes
the birth month/day; in particular a birth date falling on the current
month and day N years ago yields age N, and a birth date strictly in the
future of the current year yields N - 1. -/
theorem extractInfo_age (today : Date) (N : Nat) (a rest : Str)
    (hal : a.length = 6)
    (hty1 : 1000 ≤ today.year - N) (hty2 : today.year - N ≤ 9999) (hN : N ≤ today.year)
    (htm : today.month ≤ 99) (htd : today.day ≤ 99) :
    (∀ bm bd : Nat, bm ≤ 99 → bd ≤ 99 →
      (_extractInfoFromIdCard
          (a ++ (toDecChars (today.year - N) ++ _pad bm 2 ++ _pad bd 2) ++ rest)
          today).age =
        (today.year : Int) - ((today.year - N : Nat) : Int) -
          (if today.month < bm ∨ (today.month = bm ∧ today.day < bd) then 1 else 0)) ∧
    (_extractInfoFromIdCard
        (a ++ (toDecChars (today.year - N) ++ _pad today.month 2 ++ _pad today.day 2)
          ++ rest) today).age = (N : Int) ∧
    (∀ bm bd : Nat, bm ≤ 99 → bd ≤ 99 →
      (today.month < bm ∨ (today.month = bm ∧ today.day < bd)) →
      (_extractInfoFromIdCard
          (a ++ (toDecChars (today.year - N) ++ _pad bm 2 ++ _pad bd 2) ++ rest)
          today).age = (N : Int) - 1) := by
  have hY : (toDecChars (today.year - N)).length = 4 := toDecChars_length_year hty1 hty2
  have hgen : ∀ bm bd : Nat, bm ≤ 99 → bd ≤ 99 →
      (_extractInfoFromIdCard
          (a ++ (toDecChars (today.year - N) ++ _pad bm 2 ++ _pad bd 2) ++ rest)
          today).age =
        (today.year : Int) - ((today.year - N : Nat) : Int) -
          (if today.month < bm ∨ (today.month = bm ∧ today.day < bd) then 1 else 0) := by
    intro bm bd hbm hbd
    obtain ⟨s1, s2, s3⟩ := @extractInfo_parts a _ _ _ rest hal hY
      (@pad2_length bm (by omega)) (@pad2_length bd (by omega))
    rw [extractInfo_age_def, s1, s2, s3, parseIntChars_toDecChars,
      parseIntChars_pad, parseIntChars_pad]
  refine ⟨hgen, ?_, ?_⟩
  · rw [hgen today.month today.day htm htd]
    have hcond : ¬(today.month < today.month ∨
        (today.month = today.month ∧ today.day < today.day)) := by omega
    rw [if_neg hcond, Nat.cast_sub hN]
    ring
  · intro bm bd hbm hbd hfut
    rw [hgen bm bd hbm hbd, if_pos hfut, Nat.cast_sub hN]
    ring

/-- Witness: the C8 theorem applied to the date 2026-10-12 and N = 20. -/
theorem extractInfo_age_witness :
    (∀ bm bd : Nat, bm ≤ 99 → bd ≤ 99 →
      (_extractInfoFromIdCard
          ("110101".toList ++ (toDecChars (2026 - 20) ++ _pad bm 2 ++ _pad bd 2)
            ++ "0011".toList) (Date.mk 2026 10 12)).age =
        ((2026 : Nat) : Int) - ((2026 - 20 : Nat) : Int) -
          (if 10 < bm ∨ (10 = bm ∧ 12 < bd) then 1 else 0)) ∧
    (_extractInfoFromIdCard
        ("110101".toList ++ (toDecChars (2026 - 20) ++ _pad 10 2 ++ _pad 12 2)
          ++ "0011".toList) (Date.mk 2026 10 12)).age = ((20 : Nat) : Int) ∧
    (∀ bm bd : Nat, bm ≤ 99 → bd ≤ 99 →
      (10 < bm ∨ (10 = bm ∧ 12 < bd)) →
      (_extractInfoFromIdCard
          ("110101".toList ++ (toDecChars (2026 - 20) ++ _pad bm 2 ++ _pad bd 2)
            ++ "0011".toList) (Date.mk 2026 10 12)).age = ((20 : Nat) : Int) - 1) :=
  extractInfo_age (Date.mk 2026 10 12) 20 "110101".toList "0011".toList
    (by decide) (by decide) (by decide) (by decide) (by decide) (by decide)

/-- Option orElse with an empty fallback. -/
theorem orElse_none_right {α : Type} (x : Option α) :
    x.orElse (fun _ => none) = x := by cases x <;> rfl

/-- C5 (amended): the resolution tiers are tried strictly in order —
exact lookup, common-city aliases, prefix bucket of the whole input,
inclusion bucket of the whole input — each tier only attempted when the
prior tier misses, and the result is `none` exactly when all four tiers
miss; the inclusion tier is a single lookup of the entire input name in
the character-keyed inclusion index, not a per-character iteration. -/
theorem getAreaCodeByName_tiers (byName : List (Str × Str)) (areaName : Str) :
    _getAreaCodeByName byName areaName =
      (exactTier byName areaName).orElse (fun _ =>
        (aliasTier areaName).orElse (fun _ =>
          (preTier byName areaName).orElse (fun _ => incTier byName areaName))) ∧
    (_getAreaCodeByName byName areaName = none ↔
      exactTier byName areaName = none ∧ aliasTier areaName = none ∧
      preTier byName areaName = none ∧ incTier byName areaName = none) := by
  simp only [_getAreaCodeByName, exactTier, aliasTier, preTier, incTier]
  cases h1 : mapGet byName areaName with
  | some c => simp [Option.orElse]
  | none =>
    cases h2 : mapGet commonCities areaName with
    | some c => simp [Option.orElse]
    | none =>
      cases h3 : mapGet (_buildFuzzyAreaNameCache byName).preIdx areaName with
      | some l =>
        cases l with
        | nil =>
          cases h4 : mapGet (_buildFuzzyAreaNameCache byName).incIdx areaName with
          | some l2 => cases l2 <;> simp [Option.orElse]
          | none => simp [Option.orElse]
        | cons c rest => simp [Option.orElse]
      | none =>
        cases h4 : mapGet (_buildFuzzyAreaNameCache byName).incIdx areaName with
        | some l2 => cases l2 <;> simp [Option.orElse]
        | none => simp [Option.orElse]

/-- C5 counterexample: with the single indexed name 北京 (code 110000),
the input 京城 misses every tier of the implementation — the inclusion
index is keyed by single characters, so the two-character input cannot
match — while the per-character inclusion semantics stated by the claim
would return 110000 through the character 京. -/
theorem getAreaCodeByName_include_counterexample :
    _getAreaCodeByName [("北京".toList, "110000".toList)] "京城".toList = none ∧
    codeForNameClaim [("北京".toList, "110000".toList)] "京城".toList =
      some "110000".toList := by decide

/-- Lookup through a `mapSet` write: the written key reads the new value,
all other keys are untouched. -/
theorem mapGet_mapSet {β : Type} (m : List (Str × β)) (k k' : Str) (v : β) :
    mapGet (mapSet m k v) k' = if k' = k then some v else mapGet m k' := by
  induction m with
  | nil =>
    by_cases h : k' = k
    · subst h
      simp [mapSet, mapGet, List.find?]
    · have hb : (k == k') = false := by
        simp
        exact fun hc => h hc.symm
      simp [mapSet, mapGet, List.find?, hb, h]
  | cons p m ih =>
    by_cases hpk : p.1 = k
    · have hb : (p.1 == k) = true := by simp [hpk]
      by_cases h : k' = k
      · subst h
        simp [mapSet, hb, mapGet, List.find?]
      · have hb2 : (k == k') = false := by
          simp
          exact fun hc => h hc.symm
        have hb3 : (p.1 == k') = false := by
          simp [hpk]
          exact fun hc => h hc.symm
        simp [mapSet, hb, mapGet, List.find?, hb2, hb3, h]
    · have hb : (p.1 == k) = false := by simp [hpk]
      by_cases hpk' : p.1 = k'
      · have hb2 : (p.1 == k') = true := by simp [hpk']
        have h : ¬ k' = k := fun hc => hpk (by rw [hpk', hc])
        simp [mapSet, hb, mapGet, List.find?, hb2, h]
      · have hb2 : (p.1 == k') = false := by simp [hpk']
        have hgoal := ih
        simp only [mapSet, hb, if_false, Bool.false_eq_true]
        simp only [mapGet, List.find?, hb2] at *
        exact hgoal

/-- One `_addAreaCodeMapping` step on the name-to-code map: the inserted
name keeps any existing binding, other names are untouched. -/
theorem addMapping_byName (c : AreaCache) (code name n : Str) :
    mapGet (_addAreaCodeMapping c code name).areaCodeByName n =
      if n = name then
        (mapGet c.areaCodeByName name).orElse (fun _ => some code)
      else mapGet c.areaCodeByName n := by
  unfold _addAreaCodeMapping
  cases hx : mapGet c.areaCodeByName name with
  | some v =>
    simp [hx, Option.orElse]
    split_ifs with h
    · subst h
      exact hx
    · rfl
  | none =>
    simp [hx, Option.orElse, mapGet_mapSet]

/-- One `_addAreaCodeMapping` step on the code-to-name map: the inserted
code is overwritten unconditionally, other codes are untouched. -/
theorem addMapping_byCode (c : AreaCache) (code name n : Str) :
    mapGet (_addAreaCodeMapping c code name).nameByAreaCode n =
      if n = code then some name else mapGet c.nameByAreaCode n :=
  mapGet_mapSet c.nameByAreaCode code n name

/-- `List.find?` over an append, first list first. -/
theorem find?_append {α : Type} (p : α → Bool) (l₁ l₂ : List α) :
    (l₁ ++ l₂).find? p = (l₁.find? p).orElse (fun _ => l₂.find? p) := by
  induction l₁ with
  | nil => rfl
  | cons a l ih =>
    by_cases h : p a
    · simp [List.find?_cons_of_pos _ h, Option.orElse]
    · simp only [List.cons_append, List.find?_cons_of_neg _ h, ih]

/-- Folding insertions over any starting cache: a name reads its existing
binding if any, else the code of the first insertion carrying it. -/
theorem buildFrom_byName (l : List (Str × Str)) :
    ∀ (c : AreaCache) (name : Str),
    mapGet ((l.foldl (fun c p => _addAreaCodeMapping c p.1 p.2) c).areaCodeByName) name =
      (mapGet c.areaCodeByName name).orElse
        (fun _ => (l.find? (fun p => p.2 == name)).map (·.1)) := by
  induction l with
  | nil =>
    intro c name
    cases hx : mapGet c.areaCodeByName name <;> simp [Option.orElse, List.find?, hx]
  | cons p l ih =>
    intro c name
    rw [List.foldl_cons, ih, addMapping_byName]
    by_cases h : name = p.2
    · subst h
      rw [if_pos rfl]
      cases hx : mapGet c.areaCodeByName p.2 with
      | some v => simp [hx, Option.orElse, List.find?]
      | none => simp [hx, Option.orElse, List.find?]
    · have hb : (p.2 == name) = false := by
        simp
        exact fun hc => h hc.symm
      rw [if_neg h]
      simp [List.find?, hb]

/-- Folding insertions over any starting cache: a code reads the name of
the last insertion carrying it, else its existing binding. -/
theorem buildFrom_byCode (l : List (Str × Str)) :
    ∀ (c : AreaCache) (code : Str),
    mapGet ((l.foldl (fun c p => _addAreaCodeMapping c p.1 p.2) c).nameByAreaCode) code =
      ((l.reverse.find? (fun p => p.1 == code)).map (·.2)).orElse
        (fun _ => mapGet c.nameByAreaCode code) := by
  induction l with
  | nil =>
    intro c code
    simp [Option.orElse, List.find?]
  | cons p l ih =>
    intro c code
    rw [List.foldl_cons, ih, addMapping_byCode, List.reverse_cons, find?_append]
    by_cases h : code = p.1
    · subst h
      rw [if_pos rfl]
      cases hy : l.reverse.find? (fun q => q.1 == p.1) with
      | some q => simp [hy, Option.orElse, List.find?]
      | none => simp [hy, Option.orElse, List.find?]
    · have hb : (p.1 == code) = false := by
        simp
        exact fun hc => h hc.symm
      rw [if_neg h]
      cases hy : l.reverse.find? (fun q => q.1 == code) with
      | some q => simp [hy, Option.orElse, List.find?, hb]
      | none => simp [hy, Option.orElse, List.find?, hb]

/-- C6 (amended): over the traversal's insertion sequence, the derived
name-to-code map is first-write-wins — a name reads the code of the
first insertion carrying it — while the derived code-to-name map is
last-write-wins — a code reads the name of the last insertion carrying
it (so a code inserted under its fully-qualified name and then under its
bare name ends up mapped to the bare name); each map is single-valued. -/
theorem addAreaCodeMapping_insertion (inserts : List (Str × Str)) (name code : Str) :
    mapGet (buildMappings inserts).areaCodeByName name =
      (inserts.find? (fun p => p.2 == name)).map (·.1) ∧
    mapGet (buildMappings inserts).nameByAreaCode code =
      (inserts.reverse.find? (fun p => p.1 == code)).map (·.2) := by
  constructor
  · rw [buildMappings, buildFrom_byName]
    rfl
  · rw [buildMappings, buildFrom_byCode]
    have hf : (fun _ : Unit => mapGet (AreaCache.mk [] []).nameByAreaCode code) =
        (fun _ => none) := rfl
    rw [hf, orElse_none_right]

/-- C6 counterexample: inserting the code 110101 first under the fully
qualified name and then under the bare name leaves the code-to-name map
bound to the bare name — the later insertion, not the first, wins. -/
theorem nameByAreaCode_lastWrite_counterexample :
    mapGet (buildMappings
        [("110101".toList, "北京市东城区".toList),
         ("110101".toList, "东城区".toList)]).nameByAreaCode "110101".toList =
      some "东城区".toList ∧
    mapGet (buildMappings
        [("110101".toList, "北京市东城区".toList),
         ("110101".toList, "东城区".toList)]).nameByAreaCode "110101".toList ≠
      some "北京市东城区".toList := by decide

/-- C10: an empty-string (or absent, i.e. falsy) area code never raises a
validation error: it bypasses the 6-digit check and is silently replaced
by a random district-level code drawn from the reference entries whose
codes do not end in "00", and that code forms the first six characters of
the generated number. -/
theorem generateIdCard_emptyAreaCode
    (areaData : List AreaUnit) (d : Draws) (oa : Option Str)
    (hdata : ∀ a ∈ areaData, a.code.length = 6)
    (hne : eligibleCodes areaData ≠ [])
    (hfalsy : oa = some [] ∨ oa = none) :
    ∃ idNum, generateIdCard areaData d ⟨oa, none, none⟩ = .ok idNum ∧
      idNum.take 6 = _getRandomAreaCode areaData d.areaIdx ∧
      idNum.take 6 ∈ eligibleCodes areaData ∧
      endsWith00 (idNum.take 6) = false := by
  have hval : _validateIdCardOptions ⟨oa, none, none⟩ = .ok () := by
    rcases hfalsy with rfl | rfl <;> rfl
  have heff : effAreaCode areaData d ⟨oa, none, none⟩ =
      _getRandomAreaCode areaData d.areaIdx := by
    rcases hfalsy with rfl | rfl <;> rfl
  have hmem := getRandomAreaCode_mem hne d.areaIdx
  obtain ⟨a, ha, hac, h00⟩ := eligibleCodes_sub hmem
  have hR6 : (_getRandomAreaCode areaData d.areaIdx).length = 6 := by
    rw [← hac]
    exact hdata a ha
  have heq := @generateIdCard_eq areaData d _ hval
  rw [heff] at heq
  set R := _getRandomAreaCode areaData d.areaIdx with hR
  set B := effBirthday d ⟨oa, none, none⟩ with hB
  set S := _generateSequenceCode (effGender d ⟨oa, none, none⟩) (d.seq % 999 + 1) with hS
  have htake : ((R ++ B ++ S) ++ [_calculateCheckCode (R ++ B ++ S)]).take 6 = R := by
    have hassoc : (R ++ B ++ S) ++ [_calculateCheckCode (R ++ B ++ S)] =
        R ++ (B ++ (S ++ [_calculateCheckCode (R ++ B ++ S)])) := by
      simp [List.append_assoc]
    rw [hassoc]
    exact List.take_left' hR6
  refine ⟨_, heq, htake, ?_, ?_⟩
  · rw [htake]
    exact hmem
  · rw [htake]
    exact h00

/-- Witness: the C10 theorem applied to a concrete dataset, draw vector
and an explicitly supplied empty area code. -/
theorem generateIdCard_emptyAreaCode_witness :
    ∃ idNum, generateIdCard [sampleArea] sampleDraws ⟨some [], none, none⟩ = .ok idNum ∧
      idNum.take 6 = _getRandomAreaCode [sampleArea] sampleDraws.areaIdx ∧
      idNum.take 6 ∈ eligibleCodes [sampleArea] ∧
      endsWith00 (idNum.take 6) = false :=
  generateIdCard_emptyAreaCode [sampleArea] sampleDraws (some [])
    (by decide) (by decide) (Or.inl rfl)

/-- A non-empty list is not `isEmpty`. -/
theorem isEmpty_false_of_ne {s : Str} (h : s ≠ []) : s.isEmpty = false := by
  cases s
  · exact absurd rfl h
  · rfl

/-- C7 (amended): `generateIdCard` raises the validation error naming the
offending field whenever a supplied area code is non-empty (truthy) and
not exactly 6 digits, whenever the area-code check passes and a supplied
birthday is non-empty and not exactly 8 digits, and whenever both prior
checks pass and a supplied gender is neither 0 nor 1 — an empty string,
being falsy, bypasses its format check — and
`generatePersonInfoByAreaAndAge` raises the validation error whenever the
requested age lies outside [0, 120]. -/
theorem validation_errors :
    (∀ (areaData : List AreaUnit) (d : Draws) (o : IdCardOptions) (s : Str),
      o.areaCode = some s → s ≠ [] → isDigits s 6 = false →
      generateIdCard areaData d o = .error "地区编码必须是6位数字") ∧
    (∀ (areaData : List AreaUnit) (d : Draws) (o : IdCardOptions) (s : Str),
      (∀ t, o.areaCode = some t → t ≠ [] → isDigits t 6 = true) →
      o.birthday = some s → s ≠ [] → isDigits s 8 = false →
      generateIdCard areaData d o = .error "出生日期必须是8位数字，格式为YYYYMMDD") ∧
    (∀ (areaData : List AreaUnit) (d : Draws) (o : IdCardOptions) (g : Nat),
      (∀ t, o.areaCode = some t → t ≠ [] → isDigits t 6 = true) →
      (∀ t, o.birthday = some t → t ≠ [] → isDigits t 8 = true) →
      o.gender = some g → g ≠ 0 → g ≠ 1 →
      generateIdCard areaData d o = .error "性别必须是0(女)或1(男)") ∧
    (∀ (byName : List (Str × Str)) (areaData : List AreaUnit)
        (ty dIdx rm rd : Nat) (areaName : Str) (age : Int),
      areaName ≠ [] → (age < 0 ∨ age > 120) →
      generatePersonInfoByAreaAndAge byName areaData ty dIdx rm rd areaName age =
        .error "年龄必须在0-120之间") := by
  have hpass6 : ∀ (oa : Option Str),
      (∀ t, oa = some t → t ≠ [] → isDigits t 6 = true) →
      (truthyStr oa && !(isDigits (oa.getD []) 6)) = false := by
    intro oa ha
    cases hoa : oa with
    | none => rfl
    | some t =>
      by_cases he : t = []
      · subst he
        rfl
      · have := ha t hoa he
        simp [truthyStr, this]
  have hpass8 : ∀ (ob : Option Str),
      (∀ t, ob = some t → t ≠ [] → isDigits t 8 = true) →
      (truthyStr ob && !(isDigits (ob.getD []) 8)) = false := by
    intro ob hb
    cases hob : ob with
    | none => rfl
    | some t =>
      by_cases he : t = []
      · subst he
        rfl
      · have := hb t hob he
        simp [truthyStr, this]
  refine ⟨?_, ?_, ?_, ?_⟩
  · intro areaData d o s ho hne hdig
    have hemp : s.isEmpty = false := isEmpty_false_of_ne hne
    have hval : _validateIdCardOptions o = .error "地区编码必须是6位数字" := by
      unfold _validateIdCardOptions
      rw [ho]
      simp [truthyStr, hemp, hdig]
    unfold generateIdCard
    rw [hval]
  · intro areaData d o s ha hb hne hdig
    have hemp : s.isEmpty = false := isEmpty_false_of_ne hne
    have hc1 := hpass6 o.areaCode ha
    have hval : _validateIdCardOptions o =
        .error "出生日期必须是8位数字，格式为YYYYMMDD" := by
      unfold _validateIdCardOptions
      rw [hb, hc1]
      simp [truthyStr, hemp, hdig]
    unfold generateIdCard
    rw [hval]
  · intro areaData d o g ha hb hg hg0 hg1
    have hc1 := hpass6 o.areaCode ha
    have hc2 := hpass8 o.birthday hb
    have hval : _validateIdCardOptions o = .error "性别必须是0(女)或1(男)" := by
      unfold _validateIdCardOptions
      rw [hg, hc1, hc2]
      simp [truthyStr, hg0, hg1]
    unfold generateIdCard
    rw [hval]
  · intro byName areaData ty dIdx rm rd areaName age hname hage
    have hemp : areaName.isEmpty = false := isEmpty_false_of_ne hname
    unfold generatePersonInfoByAreaAndAge
    rw [hemp]
    rcases hage with hage | hage <;> simp [hage]

/-- Witness: each conjunct of the C7 theorem applied at a concrete
malformed input; the birthday and gender cases supply a valid 6-digit
area code (and a valid birthday) alongside the offending field. -/
theorem validation_errors_witness :
    generateIdCard [] sampleDraws ⟨some ['x'], none, none⟩ =
      .error "地区编码必须是6位数字" ∧
    generateIdCard [] sampleDraws ⟨some "110101".toList, some ['9'], none⟩ =
      .error "出生日期必须是8位数字，格式为YYYYMMDD" ∧
    generateIdCard [] sampleDraws
        ⟨some "110101".toList, some "19900101".toList, some 2⟩ =
      .error "性别必须是0(女)或1(男)" ∧
    generatePersonInfoByAreaAndAge [] [] 2026 0 0 0 "武汉".toList 121 =
      .error "年龄必须在0-120之间" :=
  ⟨validation_errors.1 [] sampleDraws ⟨some ['x'], none, none⟩ ['x'] rfl
      (by decide) (by decide),
   validation_errors.2.1 [] sampleDraws ⟨some "110101".toList, some ['9'], none⟩ ['9']
      (by intro t h hne; cases h; decide) rfl (by decide) (by decide),
   validation_errors.2.2.1 [] sampleDraws
      ⟨some "110101".toList, some "19900101".toList, some 2⟩ 2
      (by intro t h hne; cases h; decide) (by intro t h hne; cases h; decide)
      rfl (by decide) (by decide),
   validation_errors.2.2.2 [] [] 2026 0 0 0 "武汉".toList 121
      (by decide) (Or.inr (by decide))⟩

/-- C7 counterexample: the empty string is a supplied area code that is
not six digits, yet `generateIdCard` succeeds instead of raising a
validation error — the falsy value bypasses the format check. -/
theorem validation_errors_counterexample :
    isDigits [] 6 = false ∧
    _validateIdCardOptions ⟨some [], none, none⟩ = .ok () ∧
    exceptIsOk (generateIdCard [sampleArea] sampleDraws ⟨some [], none, none⟩) = true := by
  refine ⟨by decide, rfl, by decide⟩
